import Mathlib

/-!
Verification development for the cartoon-story-frontend generation-job
orchestration core.  The definitions below are shallow embeddings of the
client's orchestration logic: the per-unit status-polling loops, the retry
coordinator, the bulk-submission validation, the merge pipeline and the
SSE line-buffering consumer.  Each definition is translated directly from
the corresponding TypeScript source.
-/

/-! ## Provider status data and normalization (poll loops) -/

/-- The shape of a `/api/check-video-status` response used by the pollers:
`{status, videoUrl?, error?}`. -/
structure StatusData where
  status : String
  videoUrl : Option String
  error : Option String
deriving DecidableEq

/-- Success-synonym test, from the poll loops:
`status === 'COMPLETED' || status === 'MEDIA_GENERATION_STATUS_COMPLETE' ||
status === 'MEDIA_GENERATION_STATUS_SUCCESSFUL'`. -/
def isSuccessStatus (s : String) : Bool :=
  s == "COMPLETED" || s == "MEDIA_GENERATION_STATUS_COMPLETE" ||
    s == "MEDIA_GENERATION_STATUS_SUCCESSFUL"

/-- Failure-synonym test, from the poll loops:
`status === 'FAILED' || status === 'MEDIA_GENERATION_STATUS_FAILED'`. -/
def isFailureStatus (s : String) : Bool :=
  s == "FAILED" || s == "MEDIA_GENERATION_STATUS_FAILED"

/-- The three-way classification the pollers induce on a provider status
string: terminal success, terminal failure, or non-terminal (keep polling). -/
inductive StatusClass where
  | success
  | failure
  | nonTerminal
deriving DecidableEq

/-- Classification of one observed status string, mirroring the if/else-if
chain of the poll loop bodies. -/
def classifyStatus (s : String) : StatusClass :=
  if isSuccessStatus s then .success
  else if isFailureStatus s then .failure
  else .nonTerminal

/-- Cache-busting URL rewrite applied on the success path of the retry
poller: ``statusData.videoUrl ? url + (url.includes('?') ? '&' : '?') +
't=' + Date.now() : undefined``. -/
def cacheBust (url : Option String) (now : Nat) : Option String :=
  match url with
  | none => none
  | some u => some (u ++ (if u.contains '?' then "&" else "?") ++ "t=" ++ toString now)

/-- Environment of one iteration of the retry poll loop in
`handleRetryVideo`: the state of the abort signal when the iteration starts
(covering the checks before and after the 1 s sleep), the state of the
signal when the poll response arrives, whether the fetch itself threw (with
its message), the parsed response body, and the `Date.now()` sample. -/
structure PollTick where
  abBefore : Bool
  abAfter : Bool
  fetchErr : Option String
  resp : StatusData
  now : Nat

/-- What one whole run of the retry poll loop commits to the unit's state:
a Completed transition with the (cache-busted) artifact URL, a Failed
transition with an error message, or nothing at all (the aborted cases,
where every branch returns without touching `generatedVideos`). -/
inductive PollCommit where
  | completed (videoUrl : Option String)
  | failed (errMsg : String)
  | noCommit
deriving DecidableEq

/-- The retry poll loop of `handleRetryVideo` (part_006 lines 239-295),
fuel-indexed: `for (let i = 0; i < maxAttempts; i++)`.  Returns the state
transition the run commits together with the number of status checks it
performs.  The fuel-0 case is the post-loop timeout check
`if (!signal.aborted) throw new Error('Video generation timed out')`,
whose failure is committed by the catch block unless the signal was
aborted. -/
def retryRunAux (env : Nat → PollTick) : Nat → Nat → PollCommit × Nat
  | i, 0 =>
    (if (env i).abBefore then .noCommit else .failed "Video generation timed out", 0)
  | i, fuel + 1 =>
    let e := env i
    if e.abBefore then (.noCommit, 0)
    else
      match e.fetchErr with
      | some msg => (if e.abAfter then .noCommit else .failed msg, 1)
      | none =>
        if isSuccessStatus e.resp.status then
          (if e.abAfter then .noCommit
           else .completed (cacheBust e.resp.videoUrl e.now), 1)
        else if isFailureStatus e.resp.status then
          (if e.abAfter then .noCommit
           else .failed ((e.resp.error).getD "Video generation failed"), 1)
        else
          let r := retryRunAux env (i + 1) fuel
          (r.1, r.2 + 1)

/-- A full retry-poller run: `maxAttempts = 300`. -/
def retryRun (env : Nat → PollTick) : PollCommit × Nat :=
  retryRunAux env 0 300

/-- Outcome of the simpler single-video flow in `VeoGenerator.handleGenerate`:
it either records the video URL or surfaces an error message. -/
inductive VeoOutcome where
  | completed (videoUrl : Option String)
  | failed (errMsg : String)
deriving DecidableEq

/-- The single-video poll loop of `VeoGenerator.handleGenerate`
(`while (!completed && attempts < maxAttempts)` with `maxAttempts = 120`),
fuel-indexed, returning the outcome and the number of status checks. -/
def veoRunAux (resp : Nat → StatusData) : Nat → Nat → VeoOutcome × Nat
  | _, 0 => (.failed "Video generation timed out", 0)
  | i, fuel + 1 =>
    let d := resp i
    if isSuccessStatus d.status then (.completed d.videoUrl, 1)
    else if isFailureStatus d.status then
      (.failed ((d.error).getD "Video generation failed"), 1)
    else
      let r := veoRunAux resp (i + 1) fuel
      (r.1, r.2 + 1)

/-- A full single-video poller run: `maxAttempts = 120`. -/
def veoRun (resp : Nat → StatusData) : VeoOutcome × Nat :=
  veoRunAux resp 0 120

/-- Monotonicity of the browser abort signal: once aborted it stays
aborted, across the sample points of consecutive loop iterations. -/
def AbortMonotone (env : Nat → PollTick) : Prop :=
  ∀ i, ((env i).abBefore = true → (env i).abAfter = true) ∧
    ((env i).abAfter = true → (env (i + 1)).abBefore = true)

theorem classifyStatus_eq_nonTerminal {s : String} :
    classifyStatus s = .nonTerminal ↔
      isSuccessStatus s = false ∧ isFailureStatus s = false := by
  unfold classifyStatus
  rcases hs : isSuccessStatus s <;> rcases hf : isFailureStatus s <;> simp

theorem retryRunAux_aborted_entry (env : Nat → PollTick) (i fuel : Nat)
    (h : (env i).abBefore = true) :
    retryRunAux env i fuel = (.noCommit, 0) := by
  cases fuel <;> simp [retryRunAux, h]

theorem retryRunAux_count_le (env : Nat → PollTick) :
    ∀ fuel i, (retryRunAux env i fuel).2 ≤ fuel := by
  intro fuel
  induction fuel with
  | zero => intro i; simp [retryRunAux]
  | succ n ih =>
    intro i
    simp only [retryRunAux]
    rcases (env i).abBefore with _ | _
    · rcases h : (env i).fetchErr with _ | msg
      · simp only [h]
        rcases isSuccessStatus (env i).resp.status with _ | _
        · rcases isFailureStatus (env i).resp.status with _ | _
          · simpa using Nat.succ_le_succ (ih (i + 1))
          · simp
        · simp
      · simp [h]
    · simp

theorem retryRunAux_timeout (env : Nat → PollTick) :
    ∀ fuel i, (∀ j, (env j).abBefore = false) →
    (∀ j, (env j).fetchErr = none) →
    (∀ j, i ≤ j → j < i + fuel → classifyStatus (env j).resp.status = .nonTerminal) →
    (retryRunAux env i fuel).1 = .failed "Video generation timed out" := by
  intro fuel
  induction fuel with
  | zero => intro i hab _ _; simp [retryRunAux, hab i]
  | succ n ih =>
    intro i hab hfe hnt
    have hcls := hnt i (Nat.le_refl i) (by omega)
    rw [classifyStatus_eq_nonTerminal] at hcls
    simp only [retryRunAux, hab i, hfe i, hcls.1, hcls.2]
    simp only [Bool.false_eq_true, if_false]
    exact ih (i + 1) hab hfe (fun j h1 h2 => hnt j (by omega) (by omega))

theorem veoRunAux_count_le (resp : Nat → StatusData) :
    ∀ fuel i, (veoRunAux resp i fuel).2 ≤ fuel := by
  intro fuel
  induction fuel with
  | zero => intro i; simp [veoRunAux]
  | succ n ih =>
    intro i
    simp only [veoRunAux]
    rcases isSuccessStatus (resp i).status with _ | _
    · rcases isFailureStatus (resp i).status with _ | _
      · simpa using Nat.succ_le_succ (ih (i + 1))
      · simp
    · simp

theorem veoRunAux_timeout (resp : Nat → StatusData) :
    ∀ fuel i,
    (∀ j, i ≤ j → j < i + fuel → classifyStatus (resp j).status = .nonTerminal) →
    (veoRunAux resp i fuel).1 = .failed "Video generation timed out" := by
  intro fuel
  induction fuel with
  | zero => intro i _; simp [veoRunAux]
  | succ n ih =>
    intro i hnt
    have hcls := hnt i (Nat.le_refl i) (by omega)
    rw [classifyStatus_eq_nonTerminal] at hcls
    simp only [veoRunAux, hcls.1, hcls.2]
    simp only [Bool.false_eq_true, if_false]
    exact ih (i + 1) (fun j h1 h2 => hnt j (by omega) (by omega))

/-- C2: polling is always bounded: the retry poller performs at most 300
status checks, the single-video flow at most 120, and when neither abort
nor a terminal status intervenes within the bound, the run commits a
Failed transition carrying the timeout error.  Polling never runs
unbounded: its check count is capped by the respective constant. -/
theorem polling_bounded_and_times_out (env : Nat → PollTick) (resp : Nat → StatusData) :
    (retryRun env).2 ≤ 300 ∧ (veoRun resp).2 ≤ 120 ∧
    ((∀ j, (env j).abBefore = false) → (∀ j, (env j).fetchErr = none) →
      (∀ j, j < 300 → classifyStatus (env j).resp.status = .nonTerminal) →
      (retryRun env).1 = .failed "Video generation timed out") ∧
    ((∀ j, j < 120 → classifyStatus (resp j).status = .nonTerminal) →
      (veoRun resp).1 = .failed "Video generation timed out") := by
  refine ⟨retryRunAux_count_le env 300 0, veoRunAux_count_le resp 120 0, ?_, ?_⟩
  · intro hab hfe hnt
    exact retryRunAux_timeout env 300 0 hab hfe (fun j _ h2 => hnt j (by omega))
  · intro hnt
    exact veoRunAux_timeout resp 120 0 (fun j _ h2 => hnt j (by omega))

def constTick : PollTick :=
  { abBefore := false, abAfter := false, fetchErr := none,
    resp := { status := "PENDING", videoUrl := none, error := none }, now := 0 }

/-- Witness for C2 at a concrete environment that always reports the
non-terminal status "PENDING" and is never aborted. -/
theorem polling_bounded_and_times_out_witness :
    (retryRun (fun _ => constTick)).1 = .failed "Video generation timed out" ∧
    (veoRun (fun _ => constTick.resp)).1 = .failed "Video generation timed out" := by
  have h := polling_bounded_and_times_out (fun _ => constTick) (fun _ => constTick.resp)
  exact ⟨h.2.2.1 (fun _ => rfl) (fun _ => rfl) (fun j _ => by decide),
    h.2.2.2 (fun j _ => by decide)⟩

theorem isSuccessStatus_iff {s : String} :
    isSuccessStatus s = true ↔
      s = "COMPLETED" ∨ s = "MEDIA_GENERATION_STATUS_COMPLETE" ∨
        s = "MEDIA_GENERATION_STATUS_SUCCESSFUL" := by
  simp [isSuccessStatus, or_assoc]

theorem isFailureStatus_iff {s : String} :
    isFailureStatus s = true ↔
      s = "FAILED" ∨ s = "MEDIA_GENERATION_STATUS_FAILED" := by
  simp [isFailureStatus]

theorem classifyStatus_eq_success {s : String} :
    classifyStatus s = .success ↔ isSuccessStatus s = true := by
  unfold classifyStatus
  rcases hs : isSuccessStatus s <;> rcases hf : isFailureStatus s <;> simp

theorem classifyStatus_eq_failure {s : String} :
    classifyStatus s = .failure ↔
      isSuccessStatus s = false ∧ isFailureStatus s = true := by
  unfold classifyStatus
  rcases hs : isSuccessStatus s <;> rcases hf : isFailureStatus s <;> simp

/-- C3: the poller normalizes every provider status string into exactly two
terminal outcomes.  The success synonyms are exactly "COMPLETED",
"MEDIA_GENERATION_STATUS_COMPLETE" and "MEDIA_GENERATION_STATUS_SUCCESSFUL"
and a response carrying one of them commits Completed with the response's
artifact URL recorded (cache-busted); the failure synonyms are exactly
"FAILED" and "MEDIA_GENERATION_STATUS_FAILED" and commit Failed; any other
status is not terminal: the iteration commits nothing and the loop
continues with the next poll. -/
theorem poller_normalizes_status (s : String) (env : Nat → PollTick) (i fuel : Nat)
    (hb : (env i).abBefore = false) (ha : (env i).abAfter = false)
    (hf : (env i).fetchErr = none) :
    (classifyStatus s = .success ↔
      (s = "COMPLETED" ∨ s = "MEDIA_GENERATION_STATUS_COMPLETE" ∨
        s = "MEDIA_GENERATION_STATUS_SUCCESSFUL")) ∧
    (classifyStatus s = .failure ↔
      (s = "FAILED" ∨ s = "MEDIA_GENERATION_STATUS_FAILED")) ∧
    (classifyStatus (env i).resp.status = .success →
      retryRunAux env i (fuel + 1) =
        (.completed (cacheBust (env i).resp.videoUrl (env i).now), 1)) ∧
    (classifyStatus (env i).resp.status = .failure →
      retryRunAux env i (fuel + 1) =
        (.failed (((env i).resp.error).getD "Video generation failed"), 1)) ∧
    (classifyStatus (env i).resp.status = .nonTerminal →
      retryRunAux env i (fuel + 1) =
        ((retryRunAux env (i + 1) fuel).1, (retryRunAux env (i + 1) fuel).2 + 1)) := by
  refine ⟨?_, ?_, ?_, ?_, ?_⟩
  · rw [classifyStatus_eq_success, isSuccessStatus_iff]
  · constructor
    · intro h
      exact isFailureStatus_iff.mp (classifyStatus_eq_failure.mp h).2
    · intro h
      rw [classifyStatus_eq_failure]
      refine ⟨?_, isFailureStatus_iff.mpr h⟩
      rcases h with h | h <;> subst h <;> decide
  · intro h
    rw [classifyStatus_eq_success] at h
    simp [retryRunAux, hb, ha, hf, h]
  · intro h
    rw [classifyStatus_eq_failure] at h
    simp [retryRunAux, hb, ha, hf, h.1, h.2]
  · intro h
    rw [classifyStatus_eq_nonTerminal] at h
    simp [retryRunAux, hb, hf, h.1, h.2]

/-- Witness for C3 at the concrete never-aborted environment: the three
success synonyms classify as success, and a "PENDING" response makes the
run continue into the next iteration. -/
theorem poller_normalizes_status_witness :
    (classifyStatus "COMPLETED" = .success ↔
      ("COMPLETED" = "COMPLETED" ∨
        "COMPLETED" = "MEDIA_GENERATION_STATUS_COMPLETE" ∨
        "COMPLETED" = "MEDIA_GENERATION_STATUS_SUCCESSFUL")) ∧
    (classifyStatus "PENDING" = .nonTerminal →
      retryRunAux (fun _ => constTick) 0 (1 + 1) =
        ((retryRunAux (fun _ => constTick) 1 1).1,
          (retryRunAux (fun _ => constTick) 1 1).2 + 1)) := by
  have h := poller_normalizes_status "COMPLETED" (fun _ => constTick) 0 1 rfl rfl rfl
  exact ⟨h.1, h.2.2.2.2⟩

theorem retryRunAux_noCommit_of_abAfter (env : Nat → PollTick) (k fuel : Nat)
    (hm : AbortMonotone env) (ha : (env k).abAfter = true) :
    (retryRunAux env k (fuel + 1)).1 = .noCommit := by
  by_cases hb : (env k).abBefore = true
  · rw [retryRunAux_aborted_entry env k (fuel + 1) hb]
  · have hb' : (env k).abBefore = false := by
      rcases h : (env k).abBefore with _ | _
      · rfl
      · exact absurd h hb
    have hnext : (env (k + 1)).abBefore = true := (hm k).2 ha
    simp only [retryRunAux, hb']
    rcases hfe : (env k).fetchErr with _ | msg
    · simp only [hfe]
      rcases hs : isSuccessStatus (env k).resp.status with _ | _
      · rcases hf : isFailureStatus (env k).resp.status with _ | _
        · simp only [Bool.false_eq_true, if_false]
          rw [retryRunAux_aborted_entry env (k + 1) fuel hnext]
        · simp [ha]
      · simp [ha]
    · simp [ha]

/-- C9: once a unit's retry attempt is cancelled, that attempt commits no
further state transition.  In any monotone abort environment, if the abort
signal is set when iteration k's poll response arrives, the run from
iteration k commits nothing — whatever the response was (success synonym,
failure synonym, non-terminal, or a fetch error) — and no further polls
are issued: every continuation from iteration k+1 performs zero status
checks and commits nothing. -/
theorem cancelled_attempt_commits_nothing (env : Nat → PollTick) (k fuel : Nat)
    (hm : AbortMonotone env) (ha : (env k).abAfter = true) :
    (retryRunAux env k (fuel + 1)).1 = .noCommit ∧
    ∀ fuel2, retryRunAux env (k + 1) fuel2 = (.noCommit, 0) := by
  refine ⟨retryRunAux_noCommit_of_abAfter env k fuel hm ha, ?_⟩
  intro fuel2
  exact retryRunAux_aborted_entry env (k + 1) fuel2 ((hm k).2 ha)

def abortedTick : PollTick :=
  { abBefore := true, abAfter := true, fetchErr := none,
    resp := { status := "COMPLETED", videoUrl := some "http://x/v.mp4", error := none },
    now := 7 }

/-- Witness for C9 at a concrete always-aborted environment whose responses
report success: nothing is committed and no further polls happen. -/
theorem cancelled_attempt_commits_nothing_witness :
    (retryRunAux (fun _ => abortedTick) 0 300).1 = .noCommit ∧
    ∀ fuel2, retryRunAux (fun _ => abortedTick) 1 fuel2 = (.noCommit, 0) :=
  cancelled_attempt_commits_nothing (fun _ => abortedTick) 0 299
    (fun _ => ⟨fun _ => rfl, fun _ => rfl⟩) rfl

/-! ## Retry coordinator: the per-unit in-flight guard (VideosDisplay) -/

/-- Events of the retry-guard state machine in `VideosDisplay`: a click on
a unit's retry affordance (`handleRetryVideo(sceneNumber)`), and the
completion of a unit's retry attempt (the `finally` block that removes the
scene from `retryingScenes`). -/
inductive RetryEvent where
  | retryCall (scene : Nat)
  | finish (scene : Nat)

/-- The guard state of `VideosDisplay`: the `retryingScenes : Set<number>`
of scenes whose retry is in progress, plus the multiset of actually spawned
attempts still in flight (one entry per running `onRetryVideo` call). -/
structure RetryUIState where
  retryingScenes : Finset ℕ
  inFlight : Multiset ℕ

def retryUIStart : RetryUIState := { retryingScenes := ∅, inFlight := 0 }

/-- One machine step, mirroring `VideosDisplay.handleRetryVideo`: a call
for a scene already in `retryingScenes` returns immediately (no attempt is
spawned, nothing changes), otherwise the scene is added and an attempt is
spawned; when an attempt finishes, `finally` removes the scene from the set
and the attempt leaves the in-flight pool. -/
def retryStep (st : RetryUIState) : RetryEvent → RetryUIState
  | .retryCall s =>
    if s ∈ st.retryingScenes then st
    else { retryingScenes := insert s st.retryingScenes,
           inFlight := s ::ₘ st.inFlight }
  | .finish s =>
    { retryingScenes := st.retryingScenes.erase s,
      inFlight := st.inFlight.erase s }

/-- The state reached from the component's pristine state after a sequence
of events. -/
def retryRunEvents (es : List RetryEvent) : RetryUIState :=
  es.foldl retryStep retryUIStart

/-- The guard invariant: a scene outside `retryingScenes` has no attempt
in flight, and no scene ever has more than one. -/
def RetryInv (st : RetryUIState) : Prop :=
  ∀ s, st.inFlight.count s ≤ 1 ∧ (s ∉ st.retryingScenes → st.inFlight.count s = 0)

theorem retryInv_start : RetryInv retryUIStart := by
  intro s
  simp [retryUIStart]

theorem retryInv_step {st : RetryUIState} (h : RetryInv st) (e : RetryEvent) :
    RetryInv (retryStep st e) := by
  cases e with
  | retryCall s =>
    by_cases hs : s ∈ st.retryingScenes
    · simpa [retryStep, hs] using h
    · intro t
      simp only [retryStep, hs, if_false, Multiset.count_cons]
      by_cases hts : t = s
      · subst hts
        have h0 := (h t).2 hs
        simp [h0]
      · have ht := h t
        simp only [if_neg hts, Nat.add_zero]
        refine ⟨ht.1, ?_⟩
        intro hmem
        exact ht.2 (fun hc => hmem (Finset.mem_insert_of_mem hc))
  | finish s =>
    intro t
    by_cases hts : t = s
    · subst hts
      have h1 := (h t).1
      simp only [retryStep, Multiset.count_erase_self]
      constructor
      · omega
      · intro _; omega
    · have ht := h t
      simp only [retryStep, Multiset.count_erase_of_ne hts]
      refine ⟨ht.1, ?_⟩
      intro hmem
      exact ht.2 (fun hc => hmem (Finset.mem_erase_of_ne_of_mem hts hc))

theorem retryInv_run (es : List RetryEvent) : RetryInv (retryRunEvents es) := by
  suffices hgen : ∀ (l : List RetryEvent) (st : RetryUIState),
      RetryInv st → RetryInv (l.foldl retryStep st) by
    exact hgen es retryUIStart retryInv_start
  intro l
  induction l with
  | nil => intro st h; exact h
  | cons e rest ih =>
    intro st h
    exact ih (retryStep st e) (retryInv_step h e)

/-- C1: in every state reachable by clicks and attempt completions, at most
one retry attempt is in flight per scene, and a retry call for a scene
whose retry is already in progress is a no-op: it leaves the state exactly
as it was (in particular it spawns no second attempt). -/
theorem retry_at_most_one_in_flight (es : List RetryEvent) (s : Nat) :
    (retryRunEvents es).inFlight.count s ≤ 1 ∧
    (s ∈ (retryRunEvents es).retryingScenes →
      retryStep (retryRunEvents es) (.retryCall s) = retryRunEvents es) := by
  refine ⟨(retryInv_run es s).1, ?_⟩
  intro hs
  simp [retryStep, hs]

/-- Witness for C1: after one retry call for scene 3, scene 3 is marked
retrying, a second call leaves the state unchanged, and at most one attempt
is in flight. -/
theorem retry_at_most_one_in_flight_witness :
    (retryRunEvents [.retryCall 3]).inFlight.count 3 ≤ 1 ∧
    retryStep (retryRunEvents [.retryCall 3]) (.retryCall 3) =
      retryRunEvents [.retryCall 3] := by
  have h := retry_at_most_one_in_flight [.retryCall 3] 3
  exact ⟨h.1, h.2 (by decide)⟩

/-! ## Retry all failed (part_006 `handleRetryAllFailed`) -/

/-- One entry of `generatedVideos` as displayed after a job:
`{sceneNumber, sceneTitle, videoUrl?, status, error?}`. -/
structure GeneratedVideo where
  sceneNumber : Nat
  sceneTitle : String
  videoUrl : Option String
  status : String
  error : Option String
deriving DecidableEq

/-- The call-time snapshot taken by `handleRetryAllFailed`:
`prev.filter(v => v.status === 'failed').map(v => v.sceneNumber)`. -/
def snapshotFailed (videos : List GeneratedVideo) : List Nat :=
  (videos.filter (fun v => v.status == "failed")).map (fun v => v.sceneNumber)

/-- The per-turn re-check of `handleRetryAllFailed`:
`prev.some(v => v.sceneNumber === sceneNumber && v.status === 'failed')`. -/
def stillFailed (videos : List GeneratedVideo) (s : Nat) : Bool :=
  videos.any (fun v => v.sceneNumber == s && v.status == "failed")

/-- The sequential retry loop of `handleRetryAllFailed`.  `effect s` is the
net effect of one awaited `handleRetryVideo(s)` call on `generatedVideos`
(parametrized because it depends on the network); the loop walks the
snapshot in order, re-checks each scene, retries it when it is still failed
(awaiting the effect before looking at the next scene) and skips it
otherwise.  Returns the final video list together with the list of scenes
actually retried, in the order the attempts were issued. -/
def retryAllAux (effect : Nat → List GeneratedVideo → List GeneratedVideo) :
    List Nat → List GeneratedVideo → List GeneratedVideo × List Nat
  | [], vids => (vids, [])
  | s :: rest, vids =>
    if stillFailed vids s then
      let r := retryAllAux effect rest (effect s vids)
      (r.1, s :: r.2)
    else retryAllAux effect rest vids

/-- `handleRetryAllFailed` (part_006 lines 306-327): snapshot the failed
scene numbers, then process them sequentially. -/
def handleRetryAllFailed (effect : Nat → List GeneratedVideo → List GeneratedVideo)
    (videos : List GeneratedVideo) : List GeneratedVideo × List Nat :=
  retryAllAux effect (snapshotFailed videos) videos

/-- An effect touches only the unit it retries: the failed-status of every
other scene is unchanged by it. -/
def PreservesOtherScenes (effect : Nat → List GeneratedVideo → List GeneratedVideo) : Prop :=
  ∀ s vids t, t ≠ s → stillFailed (effect s vids) t = stillFailed vids t

theorem retryAllAux_sublist (effect : Nat → List GeneratedVideo → List GeneratedVideo) :
    ∀ (pending : List Nat) (vids : List GeneratedVideo),
      (retryAllAux effect pending vids).2.Sublist pending := by
  intro pending
  induction pending with
  | nil => intro vids; simp [retryAllAux]
  | cons s rest ih =>
    intro vids
    by_cases h : stillFailed vids s = true
    · simpa [retryAllAux, h] using (ih (effect s vids)).cons₂ s
    · simp only [retryAllAux, h, Bool.false_eq_true, if_false]
      exact (ih vids).cons s

theorem retryAllAux_all_retried (effect : Nat → List GeneratedVideo → List GeneratedVideo)
    (hp : PreservesOtherScenes effect) :
    ∀ (pending : List Nat) (vids : List GeneratedVideo),
      pending.Nodup → (∀ s ∈ pending, stillFailed vids s = true) →
      (retryAllAux effect pending vids).2 = pending := by
  intro pending
  induction pending with
  | nil => intro vids _ _; simp [retryAllAux]
  | cons s rest ih =>
    intro vids hnd hall
    have hs : stillFailed vids s = true := hall s (List.mem_cons_self s rest)
    simp only [retryAllAux, hs, if_true]
    have hrest : ∀ t ∈ rest, stillFailed (effect s vids) t = true := by
      intro t ht
      have hts : t ≠ s := by
        intro hts
        subst hts
        exact (List.nodup_cons.mp hnd).1 ht
      rw [hp s vids t hts]
      exact hall t (List.mem_cons_of_mem s ht)
    rw [ih (effect s vids) (List.nodup_cons.mp hnd).2 hrest]

theorem snapshotFailed_stillFailed (videos : List GeneratedVideo) :
    ∀ s ∈ snapshotFailed videos, stillFailed videos s = true := by
  intro s hs
  simp only [snapshotFailed, List.mem_map, List.mem_filter] at hs
  obtain ⟨v, ⟨hv, hst⟩, hnum⟩ := hs
  simp only [stillFailed, List.any_eq_true]
  exact ⟨v, hv, by simp [hnum, hst]⟩

/-- C4: `handleRetryAllFailed` snapshots the scenes failed at call time and
walks that snapshot sequentially.  The scenes it actually retries always
form a sublist of the snapshot (a scene no longer failed at its turn is
skipped, and nothing outside the snapshot is ever retried); and when each
retry's effect touches only its own scene and the snapshot has no duplicate
scene numbers, every snapshotted scene is retried exactly once, in snapshot
order — so with failed units {2,5,7} and no mid-run status change, exactly
3 attempts are issued. -/
theorem retryAllFailed_snapshot_sequential
    (effect : Nat → List GeneratedVideo → List GeneratedVideo)
    (videos : List GeneratedVideo) :
    (handleRetryAllFailed effect videos).2.Sublist (snapshotFailed videos) ∧
    (PreservesOtherScenes effect → (snapshotFailed videos).Nodup →
      (handleRetryAllFailed effect videos).2 = snapshotFailed videos) := by
  constructor
  · exact retryAllAux_sublist effect (snapshotFailed videos) videos
  · intro hp hnd
    exact retryAllAux_all_retried effect hp (snapshotFailed videos) videos hnd
      (snapshotFailed_stillFailed videos)

/-- The immediate state update at the start of `handleRetryVideo` (part_006
lines 215-219): the retried scene is marked generating and its error is
cleared; all other entries are untouched. -/
def retryStartUpdate (s : Nat) (vids : List GeneratedVideo) : List GeneratedVideo :=
  vids.map (fun v =>
    if v.sceneNumber == s then { v with status := "generating", error := none } else v)

theorem retryStartUpdate_preserves : PreservesOtherScenes retryStartUpdate := by
  intro s vids t hts
  induction vids with
  | nil => rfl
  | cons v rest ih =>
    simp only [stillFailed, retryStartUpdate, List.map_cons, List.any_cons] at ih ⊢
    rw [ih]
    by_cases hv : v.sceneNumber = s
    · have h1 : (v.sceneNumber == s) = true := by simpa using hv
      have h2 : (s == t) = false := by
        simp only [beq_eq_false_iff_ne, ne_eq]
        exact fun h => hts h.symm
      have h3 : (v.sceneNumber == t) = false := by
        rw [hv]
        exact h2
      simp [h1, h2, h3, hv]
    · have hv' : (v.sceneNumber == s) = false := by simpa using hv
      simp [hv']

def demoVideos : List GeneratedVideo :=
  [ { sceneNumber := 1, sceneTitle := "s1", videoUrl := some "u1", status := "completed", error := none },
    { sceneNumber := 2, sceneTitle := "s2", videoUrl := none, status := "failed", error := some "e2" },
    { sceneNumber := 3, sceneTitle := "s3", videoUrl := some "u3", status := "completed", error := none },
    { sceneNumber := 4, sceneTitle := "s4", videoUrl := some "u4", status := "completed", error := none },
    { sceneNumber := 5, sceneTitle := "s5", videoUrl := none, status := "failed", error := some "e5" },
    { sceneNumber := 6, sceneTitle := "s6", videoUrl := some "u6", status := "completed", error := none },
    { sceneNumber := 7, sceneTitle := "s7", videoUrl := none, status := "failed", error := some "e7" } ]

/-- Witness for C4: on a job whose failed units are {2,5,7}, with the
retry-start effect (which only touches the retried scene), exactly the
three snapshotted scenes are retried, in order. -/
theorem retryAllFailed_snapshot_sequential_witness :
    (handleRetryAllFailed retryStartUpdate demoVideos).2 = [2, 5, 7] ∧
    (handleRetryAllFailed retryStartUpdate demoVideos).2.length = 3 := by
  have h := (retryAllFailed_snapshot_sequential retryStartUpdate demoVideos).2
    retryStartUpdate_preserves (by decide)
  have hsnap : snapshotFailed demoVideos = [2, 5, 7] := by decide
  rw [h, hsnap]
  exact ⟨rfl, rfl⟩

/-! ## Newline splitting (shared by the bulk prompt parser and the SSE consumer) -/

/-- Helper for `splitLines`: prepend a character to the first chunk. -/
def consFirst (c : Char) : List (List Char) → List (List Char)
  | [] => [[c]]
  | l :: ls => (c :: l) :: ls

/-- JavaScript `str.split('\n')` over the character sequence: the result is
the maximal newline-free chunks, always at least one (possibly empty). -/
def splitLines : List Char → List (List Char)
  | [] => [[]]
  | c :: rest =>
    if c = '\n' then [] :: splitLines rest else consFirst c (splitLines rest)

theorem splitLines_ne_nil (l : List Char) : splitLines l ≠ [] := by
  induction l with
  | nil => simp [splitLines]
  | cons c rest ih =>
    simp only [splitLines]
    by_cases h : c = '\n'
    · simp [h]
    · simp only [h, if_false]
      rcases hs : splitLines rest with _ | ⟨x, xs⟩
      · exact absurd hs ih
      · simp [consFirst]

/-! ## Bulk submission validation (part_005 `handleGenerate`) -/

/-- JavaScript `String.prototype.trim` over characters: strip leading and
trailing whitespace. -/
def trimChars (l : List Char) : List Char :=
  (((l.dropWhile Char.isWhitespace).reverse).dropWhile Char.isWhitespace).reverse

/-- The prompt parser of the bulk generator:
`prompts.split('\n').map(line => line.trim()).filter(line => line.length > 0)`. -/
def parsePromptLines (s : List Char) : List (List Char) :=
  ((splitLines s).map trimChars).filter (fun l => decide (l.length > 0))

/-- Prompt parsing on a string value. -/
def parsePrompts (s : String) : List String :=
  (parsePromptLines s.data).map (fun l => String.mk l)

/-- One per-prompt progress unit of the bulk generator. -/
structure VideoGenerationStatus where
  prompt : String
  status : String
deriving DecidableEq

/-- The request body of `/api/bulk-generate`: `{prompts, aspectRatio}`. -/
structure BulkRequest where
  prompts : List String
  aspect : String
deriving DecidableEq

/-- What the bulk `handleGenerate` does before any network call: reject
with a toast, or initialize the per-prompt progress units and send the
request. -/
inductive BulkGenerateAction where
  | rejected (title : String)
  | started (progress : List VideoGenerationStatus) (request : BulkRequest)
deriving DecidableEq

/-- `handleGenerate` of the bulk generator (part_005 lines 152-202): parse
the prompts, reject 0 or more than 200, otherwise initialize one pending
progress unit per prompt (in submission order) and issue the request. -/
def handleGenerate (prompts aspect : String) : BulkGenerateAction :=
  let promptLines := parsePrompts prompts
  if promptLines.length = 0 then .rejected "No prompts found"
  else if promptLines.length > 200 then .rejected "Too many prompts"
  else
    .started (promptLines.map (fun p => { prompt := p, status := "pending" }))
      { prompts := promptLines, aspect := aspect }

/-- The progress units a submission created (none when it was rejected). -/
def unitsOf : BulkGenerateAction → List VideoGenerationStatus
  | .rejected _ => []
  | .started progress _ => progress

/-- The request a submission sent (none when it was rejected). -/
def requestOf : BulkGenerateAction → Option BulkRequest
  | .rejected _ => none
  | .started _ request => some request

/-- C5: a bulk submission with 0 non-blank prompts or more than 200 prompts
is rejected before any work starts — no progress units are initialized and
no request is sent — while a count N with 1 ≤ N ≤ 200 initializes exactly N
per-prompt pending progress units in submission order and sends exactly the
parsed prompts. -/
theorem bulk_submission_validation (prompts aspect : String) :
    ((parsePrompts prompts).length = 0 ∨ (parsePrompts prompts).length > 200 →
      unitsOf (handleGenerate prompts aspect) = [] ∧
      requestOf (handleGenerate prompts aspect) = none) ∧
    (1 ≤ (parsePrompts prompts).length → (parsePrompts prompts).length ≤ 200 →
      unitsOf (handleGenerate prompts aspect) =
        (parsePrompts prompts).map (fun p => { prompt := p, status := "pending" }) ∧
      (unitsOf (handleGenerate prompts aspect)).length = (parsePrompts prompts).length ∧
      requestOf (handleGenerate prompts aspect) =
        some { prompts := parsePrompts prompts, aspect := aspect } ∧
      ∀ i (h : i < (unitsOf (handleGenerate prompts aspect)).length)
          (h2 : i < (parsePrompts prompts).length),
        ((unitsOf (handleGenerate prompts aspect)).get ⟨i, h⟩).prompt =
            (parsePrompts prompts).get ⟨i, h2⟩ ∧
          ((unitsOf (handleGenerate prompts aspect)).get ⟨i, h⟩).status = "pending") := by
  constructor
  · intro hc
    rcases hc with h0 | hgt
    · simp [handleGenerate, unitsOf, requestOf, h0]
    · have h0 : ¬ (parsePrompts prompts).length = 0 := by omega
      simp [handleGenerate, unitsOf, requestOf, h0, hgt]
  · intro h1 h200
    have h0 : ¬ (parsePrompts prompts).length = 0 := by omega
    have hgt : ¬ (parsePrompts prompts).length > 200 := by omega
    have hg : handleGenerate prompts aspect =
        .started ((parsePrompts prompts).map (fun p => { prompt := p, status := "pending" }))
          { prompts := parsePrompts prompts, aspect := aspect } := by
      unfold handleGenerate
      rw [if_neg h0, if_neg hgt]
    rw [hg]
    refine ⟨rfl, by simp [unitsOf], rfl, ?_⟩
    intro i h h2
    constructor
    · simp [unitsOf]
    · simp [unitsOf]

/-- Witness for C5: the empty submission is rejected with no units and no
request; the three-prompt submission "a\nb\nc" starts with exactly 3
pending units in order. -/
theorem bulk_submission_validation_witness :
    (unitsOf (handleGenerate "" "landscape") = [] ∧
      requestOf (handleGenerate "" "landscape") = none) ∧
    (unitsOf (handleGenerate "a\nb\nc" "landscape")).length =
      (parsePrompts "a\nb\nc").length ∧
    (parsePrompts "a\nb\nc").length = 3 := by
  refine ⟨(bulk_submission_validation "" "landscape").1 (Or.inl (by decide)), ?_, by decide⟩
  exact ((bulk_submission_validation "a\nb\nc" "landscape").2 (by decide) (by decide)).2.1

/-! ## Merge pipeline (VideosDisplay `handleMergeVideos`, part_008 `handleMergeSelected`) -/

/-- One element of the merge request body: `{sceneNumber, videoUrl}`. -/
structure MergeItem where
  sceneNumber : Nat
  videoUrl : Option String
deriving DecidableEq

/-- The comparator of `completedVideos.sort((a, b) => a.sceneNumber - b.sceneNumber)`:
ascending scene number. -/
def bySceneNumber (a b : GeneratedVideo) : Prop :=
  a.sceneNumber ≤ b.sceneNumber

instance : DecidableRel bySceneNumber := fun a b => Nat.decLe a.sceneNumber b.sceneNumber

instance : IsTotal GeneratedVideo bySceneNumber :=
  ⟨fun a b => Nat.le_total a.sceneNumber b.sceneNumber⟩

instance : IsTrans GeneratedVideo bySceneNumber :=
  ⟨fun _ _ _ => Nat.le_trans⟩

/-- The completed videos of the display:
`videos.filter(v => v.status === 'completed')`. -/
def completedOf (videos : List GeneratedVideo) : List GeneratedVideo :=
  videos.filter (fun v => v.status == "completed")

/-- The ordered merge payload built by `handleMergeVideos`: the completed
videos sorted by ascending scene number (a stable sort, like the JS array
sort), each mapped to `{sceneNumber, videoUrl}`. -/
def videosToMerge (videos : List GeneratedVideo) : List MergeItem :=
  ((completedOf videos).insertionSort bySceneNumber).map
    (fun v => { sceneNumber := v.sceneNumber, videoUrl := v.videoUrl })

/-- What a merge invocation does before any response arrives: reject with
a toast, or issue the `/api/merge-videos` request with the ordered payload. -/
inductive MergeAction where
  | rejected (title description : String)
  | request (videos : List MergeItem) (projectId : Option String)
deriving DecidableEq

/-- `handleMergeVideos` of `VideosDisplay` (lines 73-112): fewer than 2
completed videos is rejected before any request; otherwise the sorted
payload is sent.  The `videos` prop is returned unchanged: the function
never writes to it. -/
def handleMergeVideos (videos : List GeneratedVideo) (projectId : Option String) :
    MergeAction × List GeneratedVideo :=
  if (completedOf videos).length < 2 then
    (.rejected "Cannot Merge" "You need at least 2 completed videos to merge.", videos)
  else
    (.request (videosToMerge videos) projectId, videos)

/-- What `handleMergeSelected` of the history view does before any response:
reject, or send the selected video ids to `/api/merge-selected-videos`. -/
inductive MergeSelectedAction where
  | rejected (title description : String)
  | request (videoIds : List String)
deriving DecidableEq

/-- `handleMergeSelected` (part_008 lines 211-236): fewer than 2 selected
videos is rejected before any request; otherwise `Array.from(selectedVideos)`
is sent. -/
def handleMergeSelected (selectedVideos : List String) : MergeSelectedAction :=
  if selectedVideos.length < 2 then
    .rejected "Select More Videos" "Please select at least 2 videos to merge."
  else
    .request selectedVideos

/-- The payload a merge invocation issued (none when it was rejected). -/
def mergeRequestOf : MergeAction → Option (List MergeItem)
  | .rejected _ _ => none
  | .request videos _ => some videos

/-- Strict key order up to identity, used to make sortedness rigid when the
scene numbers are pairwise distinct. -/
def bySceneNumberStrict (a b : GeneratedVideo) : Prop :=
  a.sceneNumber < b.sceneNumber ∨ a = b

instance : IsAntisymm GeneratedVideo bySceneNumberStrict := by
  constructor
  intro a b hab hba
  rcases hab with h1 | h1
  · rcases hba with h2 | h2
    · omega
    · exact h2.symm
  · exact h1

theorem sorted_strict_of_sorted_nodup {l : List GeneratedVideo}
    (hs : l.Sorted bySceneNumber)
    (hnd : (l.map (fun v => v.sceneNumber)).Nodup) :
    l.Sorted bySceneNumberStrict := by
  have hpw : l.Pairwise (fun a b => a.sceneNumber ≠ b.sceneNumber) :=
    List.pairwise_map.mp hnd
  exact List.Pairwise.imp₂ (fun a b hle hne => Or.inl (Nat.lt_of_le_of_ne hle hne))
    hs hpw

theorem sortByScene_eq_of_perm {l1 l2 : List GeneratedVideo}
    (hperm : l1.Perm l2)
    (hnd : (l1.map (fun v => v.sceneNumber)).Nodup) :
    l1.insertionSort bySceneNumber = l2.insertionSort bySceneNumber := by
  have hnd2 : (l2.map (fun v => v.sceneNumber)).Nodup :=
    ((hperm.map (fun v => v.sceneNumber)).nodup_iff).mp hnd
  have hp : (l1.insertionSort bySceneNumber).Perm (l2.insertionSort bySceneNumber) :=
    ((l1.perm_insertionSort bySceneNumber).trans hperm).trans
      (l2.perm_insertionSort bySceneNumber).symm
  have hnds1 : ((l1.insertionSort bySceneNumber).map (fun v => v.sceneNumber)).Nodup :=
    (((l1.perm_insertionSort bySceneNumber).map (fun v => v.sceneNumber)).nodup_iff).mpr hnd
  have hnds2 : ((l2.insertionSort bySceneNumber).map (fun v => v.sceneNumber)).Nodup :=
    (((l2.perm_insertionSort bySceneNumber).map (fun v => v.sceneNumber)).nodup_iff).mpr hnd2
  exact List.eq_of_perm_of_sorted hp
    (sorted_strict_of_sorted_nodup (l1.sorted_insertionSort bySceneNumber) hnds1)
    (sorted_strict_of_sorted_nodup (l2.sorted_insertionSort bySceneNumber) hnds2)

/-- C6: the merge payload is order-invariant on the input list.  For any
two video lists that are permutations of each other, with pairwise-distinct
scene numbers among the completed entries (the data model assigns unique
sequence numbers within a job), the built payload — and hence the merge
request issued — is identical: the client always sorts by ascending scene
number before building the request. -/
theorem merge_order_invariant (l1 l2 : List GeneratedVideo) (projectId : Option String)
    (hperm : l1.Perm l2)
    (hnd : ((completedOf l1).map (fun v => v.sceneNumber)).Nodup) :
    videosToMerge l1 = videosToMerge l2 ∧
    (handleMergeVideos l1 projectId).1 = (handleMergeVideos l2 projectId).1 := by
  have hpc : (completedOf l1).Perm (completedOf l2) := hperm.filter _
  have heq : videosToMerge l1 = videosToMerge l2 := by
    unfold videosToMerge
    rw [sortByScene_eq_of_perm hpc hnd]
  refine ⟨heq, ?_⟩
  unfold handleMergeVideos
  rw [hpc.length_eq, heq]
  by_cases h : (completedOf l2).length < 2 <;> simp [h]

def demoPermA : List GeneratedVideo :=
  [ { sceneNumber := 2, sceneTitle := "t2", videoUrl := some "b", status := "completed", error := none },
    { sceneNumber := 1, sceneTitle := "t1", videoUrl := some "a", status := "completed", error := none },
    { sceneNumber := 3, sceneTitle := "t3", videoUrl := some "c", status := "completed", error := none } ]

def demoPermB : List GeneratedVideo :=
  [ { sceneNumber := 1, sceneTitle := "t1", videoUrl := some "a", status := "completed", error := none },
    { sceneNumber := 2, sceneTitle := "t2", videoUrl := some "b", status := "completed", error := none },
    { sceneNumber := 3, sceneTitle := "t3", videoUrl := some "c", status := "completed", error := none } ]

/-- Witness for C6: merging `[{2,b},{1,a},{3,c}]` produces the same payload
as merging `[{1,a},{2,b},{3,c}]`. -/
theorem merge_order_invariant_witness :
    videosToMerge demoPermA = videosToMerge demoPermB ∧
    (handleMergeVideos demoPermA none).1 = (handleMergeVideos demoPermB none).1 :=
  merge_order_invariant demoPermA demoPermB none (by decide) (by decide)

/-- C7: a merge invoked with fewer than 2 completed inputs is rejected with
an error before any merge request is issued — no payload is produced and
the input videos are returned unmutated — and likewise a history-view merge
of fewer than 2 selected videos is rejected before any request. -/
theorem merge_rejects_fewer_than_two (videos : List GeneratedVideo)
    (projectId : Option String) (selectedVideos : List String) :
    ((completedOf videos).length < 2 →
      (handleMergeVideos videos projectId).1 =
        .rejected "Cannot Merge" "You need at least 2 completed videos to merge." ∧
      mergeRequestOf (handleMergeVideos videos projectId).1 = none ∧
      (handleMergeVideos videos projectId).2 = videos) ∧
    (selectedVideos.length < 2 →
      handleMergeSelected selectedVideos =
        .rejected "Select More Videos" "Please select at least 2 videos to merge.") := by
  constructor
  · intro h
    simp [handleMergeVideos, h, mergeRequestOf]
  · intro h
    simp [handleMergeSelected, h]

def demoOneCompleted : List GeneratedVideo :=
  [ { sceneNumber := 1, sceneTitle := "t1", videoUrl := some "a", status := "completed", error := none },
    { sceneNumber := 2, sceneTitle := "t2", videoUrl := none, status := "failed", error := some "e" } ]

/-- Witness for C7: a job with a single completed video cannot be merged,
and a single selected history video cannot be merged. -/
theorem merge_rejects_fewer_than_two_witness :
    ((handleMergeVideos demoOneCompleted none).1 =
      .rejected "Cannot Merge" "You need at least 2 completed videos to merge." ∧
      mergeRequestOf (handleMergeVideos demoOneCompleted none).1 = none ∧
      (handleMergeVideos demoOneCompleted none).2 = demoOneCompleted) ∧
    handleMergeSelected ["v1"] =
      .rejected "Select More Videos" "Please select at least 2 videos to merge." := by
  have h := merge_rejects_fewer_than_two demoOneCompleted none ["v1"]
  exact ⟨h.1 (by decide), h.2 (by decide)⟩

/-! ## History-view merge selection (part_008 `handleVideoSelect`) -/

/-- `handleVideoSelect` (part_008 lines 182-209) over the selection as an
insertion-ordered duplicate-free list (the JS `Set<string>`): a toggle of a
non-completed video is refused; a toggle of a selected video removes it; an
addition that would make the selection exceed 19 is refused; otherwise the
video is added. -/
def handleVideoSelect (selectedVideos : List String) (videoId : String)
    (isCompleted : Bool) : List String :=
  if isCompleted = false then selectedVideos
  else if videoId ∈ selectedVideos then selectedVideos.erase videoId
  else if 19 ≤ selectedVideos.length then selectedVideos
  else selectedVideos ++ [videoId]

/-- C10: the merge-selection set preserves its invariants under every
toggle: a toggle of a non-completed video leaves it unchanged; a toggle of
an already-selected video removes that video; a toggle that would add a
20th video leaves it unchanged; its size never exceeds 19; it stays
duplicate-free; and when the toggled flag reflects the video's status, a
selection containing only completed videos still contains only completed
videos afterwards. -/
theorem video_selection_invariants (selectedVideos : List String) (videoId : String)
    (isCompleted : Bool) (statusOf : String → String) :
    (isCompleted = false →
      handleVideoSelect selectedVideos videoId isCompleted = selectedVideos) ∧
    (videoId ∈ selectedVideos → isCompleted = true →
      handleVideoSelect selectedVideos videoId isCompleted =
        selectedVideos.erase videoId) ∧
    (isCompleted = true → videoId ∉ selectedVideos → 19 ≤ selectedVideos.length →
      handleVideoSelect selectedVideos videoId isCompleted = selectedVideos) ∧
    (selectedVideos.length ≤ 19 →
      (handleVideoSelect selectedVideos videoId isCompleted).length ≤ 19) ∧
    (selectedVideos.Nodup →
      (handleVideoSelect selectedVideos videoId isCompleted).Nodup) ∧
    (isCompleted = (statusOf videoId == "completed") →
      (∀ x ∈ selectedVideos, statusOf x = "completed") →
      ∀ x ∈ handleVideoSelect selectedVideos videoId isCompleted,
        statusOf x = "completed") := by
  refine ⟨?_, ?_, ?_, ?_, ?_, ?_⟩
  · intro h
    simp [handleVideoSelect, h]
  · intro hmem hc
    simp [handleVideoSelect, hc, hmem]
  · intro hc hnmem hlen
    simp [handleVideoSelect, hc, hnmem, hlen]
  · intro hlen
    unfold handleVideoSelect
    by_cases hc : isCompleted = false
    · rw [if_pos hc]
      exact hlen
    · rw [if_neg hc]
      by_cases hmem : videoId ∈ selectedVideos
      · rw [if_pos hmem]
        calc (selectedVideos.erase videoId).length ≤ selectedVideos.length :=
              List.length_erase_le videoId selectedVideos
          _ ≤ 19 := hlen
      · rw [if_neg hmem]
        by_cases hl : 19 ≤ selectedVideos.length
        · rw [if_pos hl]
          exact hlen
        · rw [if_neg hl]
          simp only [List.length_append, List.length_cons, List.length_nil]
          omega
  · intro hnd
    unfold handleVideoSelect
    by_cases hc : isCompleted = false
    · rw [if_pos hc]
      exact hnd
    · rw [if_neg hc]
      by_cases hmem : videoId ∈ selectedVideos
      · rw [if_pos hmem]
        exact hnd.erase videoId
      · rw [if_neg hmem]
        by_cases hl : 19 ≤ selectedVideos.length
        · rw [if_pos hl]
          exact hnd
        · rw [if_neg hl]
          rw [List.nodup_append]
          refine ⟨hnd, List.nodup_singleton videoId, ?_⟩
          intro a ha hb
          have hav : a = videoId := by simpa using hb
          subst hav
          exact hmem ha
  · intro hflag hall x hx
    unfold handleVideoSelect at hx
    by_cases hc : isCompleted = false
    · rw [if_pos hc] at hx
      exact hall x hx
    · rw [if_neg hc] at hx
      have hcv : (statusOf videoId == "completed") = true := by
        rcases hcc : isCompleted with _ | _
        · exact absurd hcc hc
        · rw [hcc] at hflag; exact hflag.symm
      by_cases hmem : videoId ∈ selectedVideos
      · rw [if_pos hmem] at hx
        exact hall x (List.mem_of_mem_erase hx)
      · rw [if_neg hmem] at hx
        by_cases hl : 19 ≤ selectedVideos.length
        · rw [if_pos hl] at hx
          exact hall x hx
        · rw [if_neg hl] at hx
          rcases List.mem_append.mp hx with h | h
          · exact hall x h
          · have hxv : x = videoId := by simpa using h
            subst hxv
            simpa using hcv

def demoStatusOf (videoId : String) : String :=
  if videoId = "v1" ∨ videoId = "v2" then "completed" else "pending"

/-- Witness for C10: with videos v1, v2 completed and v3 pending, toggling
the pending v3 on the selection {v1} leaves it unchanged, toggling the
selected v1 removes it, and the completed-only invariant carries over to a
toggle of v2. -/
theorem video_selection_invariants_witness :
    handleVideoSelect ["v1"] "v3" false = ["v1"] ∧
    handleVideoSelect ["v1"] "v1" true = ["v1"].erase "v1" ∧
    (∀ x ∈ handleVideoSelect ["v1"] "v2" true, demoStatusOf x = "completed") := by
  refine ⟨?_, ?_, ?_⟩
  · exact (video_selection_invariants ["v1"] "v3" false demoStatusOf).1 rfl
  · exact (video_selection_invariants ["v1"] "v1" true demoStatusOf).2.1
      (by decide) rfl
  · exact (video_selection_invariants ["v1"] "v2" true demoStatusOf).2.2.2.2.2
      (by decide) (by decide)

/-! ## SSE line-buffered stream consumer (part_006 `handleGenerateVideos`) -/

/-- Prefix the remainder of the previous buffer onto the first chunk of a
split (the first line of the continuation belongs to the partial line that
was retained). -/
def consHead (p : List Char) : List (List Char) → List (List Char)
  | [] => [p]
  | l :: ls => (p ++ l) :: ls

theorem consHead_ne_nil (p : List Char) (t : List (List Char)) : consHead p t ≠ [] := by
  cases t <;> simp [consHead]

theorem consHead_nil_left {t : List (List Char)} (h : t ≠ []) : consHead [] t = t := by
  cases t with
  | nil => exact absurd rfl h
  | cons x xs => simp [consHead]

theorem getLastD_default_irrel {α : Type} (l : List α) (h : l ≠ []) (d d' : α) :
    l.getLastD d = l.getLastD d' := by
  cases l with
  | nil => exact absurd rfl h
  | cons a t => rw [List.getLastD_cons, List.getLastD_cons]

theorem getLastD_append_right {α : Type} (l2 : List α) (h : l2 ≠ []) :
    ∀ (l1 : List α) (d : α), (l1 ++ l2).getLastD d = l2.getLastD d := by
  intro l1
  induction l1 with
  | nil => intro d; rfl
  | cons a t ih =>
    intro d
    rw [List.cons_append, List.getLastD_cons, ih a]
    exact getLastD_default_irrel l2 h a d

theorem splitLines_no_newline (l : List Char) (h : '\n' ∉ l) : splitLines l = [l] := by
  induction l with
  | nil => rfl
  | cons c rest ih =>
    have hc : ¬ c = '\n' := by
      intro hc
      exact h (hc ▸ List.mem_cons_self c rest)
    have hr : '\n' ∉ rest := fun hm => h (List.mem_cons_of_mem c hm)
    simp only [splitLines, hc, if_false, ih hr, consFirst]

theorem splitLines_getLastD_no_newline (l : List Char) :
    '\n' ∉ (splitLines l).getLastD [] := by
  induction l with
  | nil => simp [splitLines]
  | cons c rest ih =>
    simp only [splitLines]
    by_cases hc : c = '\n'
    · rw [if_pos hc, List.getLastD_cons]
      exact ih
    · rw [if_neg hc]
      rcases hs : splitLines rest with _ | ⟨x, xs⟩
      · exact absurd hs (splitLines_ne_nil rest)
      · rw [hs] at ih
        cases xs with
        | nil =>
          simp only [consFirst, List.getLastD_cons] at ih ⊢
          intro hm
          rcases List.mem_cons.mp hm with h1 | h1
          · exact hc h1.symm
          · exact ih (by simpa using h1)
        | cons y ys =>
          simp only [consFirst, List.getLastD_cons] at ih ⊢
          exact ih

theorem consFirst_dropLast_consHead (c : Char) (s t : List (List Char))
    (hs : s ≠ []) (ht : t ≠ []) :
    consFirst c (s.dropLast ++ consHead (s.getLastD []) t) =
      (consFirst c s).dropLast ++ consHead ((consFirst c s).getLastD []) t := by
  cases s with
  | nil => exact absurd rfl hs
  | cons s0 srest =>
    cases srest with
    | nil =>
      cases t with
      | nil => exact absurd rfl ht
      | cons t0 trest =>
        simp [consFirst, consHead, List.getLastD_cons]
    | cons s1 srest2 =>
      cases t with
      | nil => exact absurd rfl ht
      | cons t0 trest =>
        simp only [consFirst, List.getLastD_cons]
        rw [List.dropLast_cons₂, List.dropLast_cons₂]
        simp

theorem splitLines_append (a b : List Char) :
    splitLines (a ++ b) =
      (splitLines a).dropLast ++ consHead ((splitLines a).getLastD []) (splitLines b) := by
  induction a with
  | nil =>
    show splitLines b = [[]].dropLast ++ consHead ([[]].getLastD []) (splitLines b)
    rw [List.getLastD_cons]
    show splitLines b = [] ++ consHead [] (splitLines b)
    rw [List.nil_append, consHead_nil_left (splitLines_ne_nil b)]
  | cons c arest ih =>
    show (if c = '\n' then [] :: splitLines (arest ++ b)
        else consFirst c (splitLines (arest ++ b))) =
      (splitLines (c :: arest)).dropLast ++
        consHead ((splitLines (c :: arest)).getLastD []) (splitLines b)
    by_cases hc : c = '\n'
    · rw [if_pos hc, ih]
      have h1 : splitLines (c :: arest) = [] :: splitLines arest := by
        simp [splitLines, hc]
      rw [h1, List.dropLast_cons_of_ne_nil (splitLines_ne_nil arest),
        List.getLastD_cons, List.cons_append]
    · rw [if_neg hc, ih]
      have h1 : splitLines (c :: arest) = consFirst c (splitLines arest) := by
        simp [splitLines, hc]
      rw [h1]
      exact consFirst_dropLast_consHead c (splitLines arest) (splitLines b)
        (splitLines_ne_nil arest) (splitLines_ne_nil b)

/-- One read of the SSE loop (part_006 lines 362-374): append the decoded
chunk to the buffer, split on newlines, process the complete lines and
retain the trailing incomplete line (`buffer = lines.pop() || ''`) for the
next read. -/
def processChunk (buffer chunk : List Char) : List (List Char) × List Char :=
  let lines := splitLines (buffer ++ chunk)
  (lines.dropLast, lines.getLastD [])

/-- The whole reader loop: feed each transport chunk through `processChunk`,
accumulating the processed lines; at end of stream the trailing buffer is
left unprocessed. -/
def consumeStream (chunks : List (List Char)) (buffer : List Char) :
    List (List Char) × List Char :=
  match chunks with
  | [] => ([], buffer)
  | c :: cs =>
    let p := processChunk buffer c
    let r := consumeStream cs p.2
    (p.1 ++ r.1, r.2)

/-- The concatenation of the transport chunks: the underlying byte stream. -/
def streamBytes (chunks : List (List Char)) : List Char :=
  chunks.foldr (fun c acc => c ++ acc) []

theorem consumeStream_eq (chunks : List (List Char)) :
    ∀ (buffer : List Char), '\n' ∉ buffer →
    consumeStream chunks buffer =
      ((splitLines (buffer ++ streamBytes chunks)).dropLast,
        (splitLines (buffer ++ streamBytes chunks)).getLastD []) := by
  induction chunks with
  | nil =>
    intro buffer hb
    rw [show streamBytes [] = [] from rfl, List.append_nil,
      splitLines_no_newline buffer hb]
    rfl
  | cons c cs ih =>
    intro buffer hb
    have hlast := splitLines_getLastD_no_newline (buffer ++ c)
    have hr := ih ((splitLines (buffer ++ c)).getLastD []) hlast
    show ((splitLines (buffer ++ c)).dropLast ++
        (consumeStream cs ((splitLines (buffer ++ c)).getLastD [])).1,
      (consumeStream cs ((splitLines (buffer ++ c)).getLastD [])).2) = _
    rw [hr]
    have hbytes : buffer ++ streamBytes (c :: cs) = (buffer ++ c) ++ streamBytes cs := by
      show buffer ++ (c ++ streamBytes cs) = (buffer ++ c) ++ streamBytes cs
      rw [List.append_assoc]
    rw [hbytes, splitLines_append (buffer ++ c) (streamBytes cs)]
    have hS2 : splitLines ((splitLines (buffer ++ c)).getLastD [] ++ streamBytes cs) =
        consHead ((splitLines (buffer ++ c)).getLastD []) (splitLines (streamBytes cs)) := by
      rw [splitLines_append, splitLines_no_newline _ hlast]
      simp
    rw [hS2]
    have hne : consHead ((splitLines (buffer ++ c)).getLastD [])
        (splitLines (streamBytes cs)) ≠ [] := consHead_ne_nil _ _
    rw [List.dropLast_append_of_ne_nil _ hne, getLastD_append_right _ hne]

/-- Event extraction from one complete line (part_006 lines 376-378): lines
starting with "data: " carry a JSON event payload after the 6-character
marker; other lines carry none. -/
def parseEventLine (line : List Char) : Option (List Char) :=
  if ("data: ".data).isPrefixOf line then some (line.drop 6) else none

/-- The sequence of event payloads a consumer parses from a chunked stream,
starting from an empty buffer. -/
def eventsOf (chunks : List (List Char)) : List (List Char) :=
  (consumeStream chunks []).1.filterMap parseEventLine

/-- C8: the streamed-generation consumer tolerates event records split
across transport chunks.  Starting from an empty buffer, the lines it
processes are exactly the complete (newline-terminated) lines of the
underlying byte stream, with the trailing incomplete line retained in the
buffer rather than parsed; consequently, for any two chunkings of the same
byte stream the consumer processes the same lines and parses the same
event sequence — no event is lost or parsed from a partial record. -/
theorem sse_chunking_invariant (chunks1 chunks2 : List (List Char))
    (hsame : streamBytes chunks1 = streamBytes chunks2) :
    consumeStream chunks1 [] =
      ((splitLines (streamBytes chunks1)).dropLast,
        (splitLines (streamBytes chunks1)).getLastD []) ∧
    consumeStream chunks1 [] = consumeStream chunks2 [] ∧
    eventsOf chunks1 = eventsOf chunks2 := by
  have h1 := consumeStream_eq chunks1 [] (by simp)
  have h2 := consumeStream_eq chunks2 [] (by simp)
  rw [List.nil_append] at h1 h2
  refine ⟨h1, ?_, ?_⟩
  · rw [h1, h2, hsame]
  · unfold eventsOf
    rw [h1, h2, hsame]

def demoChunksA : List (List Char) :=
  [("data: a\nda".data), ("ta: b\n".data)]

def demoChunksB : List (List Char) :=
  [("data: a\ndata: b\n".data)]

/-- Witness for C8: splitting the stream "data: a\ndata: b\n" mid-record
yields the same processed lines and the same parsed events as delivering it
in one chunk. -/
theorem sse_chunking_invariant_witness :
    consumeStream demoChunksA [] = consumeStream demoChunksB [] ∧
    eventsOf demoChunksA = eventsOf demoChunksB := by
  have h := sse_chunking_invariant demoChunksA demoChunksB (by decide)
  exact ⟨h.2.1, h.2.2⟩
